import Mathlib

/-!
Verification of the SEOplan orchestration core (src/main.py): the trends
client (`fetch_keyword_trends`, `create_mock_keyword_data`), the credential
resolver (`configure_openai`, `get_api_key_input`), the content generator
(`generate_meta_description`) and the heuristic analyzer
(`analyze_meta_description`, `calculate_seo_score`).

Strings are modelled as `List Char` where character-level operations matter
(Python `str.lower`, `str.split`, substring tests), and as `String` for
opaque payloads (queries, suggestion texts, credentials).  Python's
truthiness of strings (`if s:`) is modelled as a non-emptiness test, and
pandas' `Series.round` (round half to even, as numpy does) is modelled by
`rnd2` on `ℚ`.
-/

namespace SEOplan

/-! ### Heuristic analyzer (src/main.py lines 207-264) -/

/-- Python `str.split()` with no separator: split on runs of whitespace,
dropping empty tokens.  Auxiliary accumulator form (`acc` holds the current
token reversed). -/
def splitWsAux : List Char → List Char → List (List Char)
  | [], acc => if acc.isEmpty then [] else [acc.reverse]
  | c :: rest, acc =>
    if c.isWhitespace then
      if acc.isEmpty then splitWsAux rest []
      else acc.reverse :: splitWsAux rest []
    else splitWsAux rest (c :: acc)

/-- `description.split()` from the source. -/
def splitWs (l : List Char) : List (List Char) :=
  splitWsAux l []

/-- Python `str.lower()`, character by character. -/
def lowerL (l : List Char) : List Char :=
  l.map Char.toLower

/-- Boolean list-equality-preserving substring test used for Python's
`needle in haystack` on strings: `needle` occurs contiguously in
`haystack`. -/
def isPrefixB : List Char → List Char → Bool
  | [], _ => true
  | _ :: _, [] => false
  | a :: as, b :: bs => a == b && isPrefixB as bs

/-- Python `needle in haystack` (substring containment). -/
def isInfixOfB : List Char → List Char → Bool
  | needle, [] => needle.isEmpty
  | needle, b :: bs => isPrefixB needle (b :: bs) || isInfixOfB needle bs

/-- `action_words` from the source (line 217). -/
def action_words : List String :=
  ["discover", "learn", "get", "find", "explore", "boost", "improve", "master"]

/-- `topic.lower().split()` from the source (line 213). -/
def topic_words (topic : List Char) : List (List Char) :=
  splitWs (lowerL topic)

/-- `any(word in description.lower() for word in topic_words)` (line 214). -/
def contains_topic (description topic : List Char) : Bool :=
  (topic_words topic).any fun w => isInfixOfB w (lowerL description)

/-- `any(word in description.lower() for word in action_words)` (line 218). -/
def has_action_word (description : List Char) : Bool :=
  action_words.any fun w => isInfixOfB w.toList (lowerL description)

/-- `any(char in description for char in '!?')` (line 230). -/
def has_emphasis (description : List Char) : Bool :=
  ['!', '?'].any fun c => description.contains c

/-- The five suggestion strings of `analyze_meta_description` (lines 222-231). -/
def sugg_shorten : String := "Consider shortening to under 160 characters"

def sugg_lengthen : String := "Consider adding more descriptive content"

def sugg_topic : String := "Include main topic keywords"

def sugg_action : String := "Add action words to encourage clicks"

def sugg_punct : String := "Consider adding punctuation for emphasis"

/-- `calculate_seo_score` (lines 242-264): length bucket, topic bonus,
action-word bonus, capped at 100 by `min(score, 100)`. -/
def calculate_seo_score (length : ℕ) (ct aw : Bool) : ℕ :=
  let base : ℕ :=
    if 120 ≤ length ∧ length ≤ 160 then 40
    else if (100 ≤ length ∧ length < 120) ∨ (160 < length ∧ length ≤ 180) then 30
    else if (80 ≤ length ∧ length < 100) ∨ (180 < length ∧ length ≤ 200) then 20
    else 10
  let withTopic := base + (if ct then 30 else 0)
  let withAction := withTopic + (if aw then 30 else 0)
  min withAction 100

/-- The dictionary `analyze_meta_description` returns (lines 233-240). -/
structure AnalysisReport where
  length : ℕ
  word_count : ℕ
  contains_topic : Bool
  has_action_word : Bool
  suggestions : List String
  score : ℕ
deriving DecidableEq, Repr

/-- `analyze_meta_description` (lines 207-240): features, the suggestion list
built by the five sequential `if`s, and the score. -/
def analyze_meta_description (description topic : List Char) : AnalysisReport :=
  let length := description.length
  let word_count := (splitWs description).length
  let ct := contains_topic description topic
  let aw := has_action_word description
  let suggestions :=
    (if 160 < length then [sugg_shorten] else []) ++
    (if length < 120 then [sugg_lengthen] else []) ++
    (if ct = false then [sugg_topic] else []) ++
    (if aw = false then [sugg_action] else []) ++
    (if has_emphasis description = false then [sugg_punct] else [])
  ⟨length, word_count, ct, aw, suggestions, calculate_seo_score length ct aw⟩

/-! Spec-side restatements (written from the specification's words, to be
compared with the definitions above). -/

/-- The score rule as §4.4 step 4 of the spec words it: start at 0, add the
length bucket, add 30 for the topic, add 30 for an action word, clamp to
at most 100. -/
def spec_score (length : ℕ) (ct aw : Bool) : ℕ :=
  min ((if 120 ≤ length ∧ length ≤ 160 then 40
        else if (100 ≤ length ∧ length < 120) ∨ (160 < length ∧ length ≤ 180) then 30
        else if (80 ≤ length ∧ length < 100) ∨ (180 < length ∧ length ≤ 200) then 20
        else 10)
       + (if ct then 30 else 0)
       + (if aw then 30 else 0))
      100

/-- The suggestion list as §4.4 step 5 of the spec words it: fixed order,
each entry appended only when its condition holds. -/
def spec_suggestions (length : ℕ) (ct aw punct : Bool) : List String :=
  (if 160 < length then [sugg_shorten] else []) ++
  (if length < 120 then [sugg_lengthen] else []) ++
  (if ct = false then [sugg_topic] else []) ++
  (if aw = false then [sugg_action] else []) ++
  (if punct = false then [sugg_punct] else [])

/-! ### Trends client (src/main.py lines 105-156) -/

/-- One row of the DataFrame `fetch_keyword_trends` returns: the provider's
`query` and `value` columns plus the two columns the function adds
(`estimated_volume`, `difficulty`). -/
structure TrendRow where
  query : String
  value : ℕ
  estimated_volume : ℕ
  difficulty : ℕ
deriving DecidableEq, Repr

/-- `Series.round()` as pandas/numpy compute it, round half to even, applied
to the exact rational `a / b`: with quotient `a / b` and remainder `a % b`,
round down when the remainder is under half of `b`, up when over, and to the
even neighbour on an exact half. -/
def roundDiv (a b : ℕ) : ℕ :=
  let qt := a / b
  let r := a % b
  if 2 * r < b then qt
  else if b < 2 * r then qt + 1
  else if qt % 2 = 0 then qt else qt + 1

/-- `df['value'].max()` over the raw provider rows `(query, value)`. -/
def maxVal (raw : List (String × ℕ)) : ℕ :=
  (raw.map Prod.snd).foldr max 0

/-- Lines 131-132: `estimated_volume = value * 100` and
`difficulty = (value / value.max() * 100).round().astype(int)`, the rounded
quantity being the exact rational `(value * 100) / max`. -/
def derive_row (m : ℕ) (p : String × ℕ) : TrendRow :=
  ⟨p.1, p.2, p.2 * 100, roundDiv (p.2 * 100) m⟩

/-- `create_mock_keyword_data` (lines 142-156): five synthetic rows with fixed
`value`, `estimated_volume` and `difficulty` columns. -/
def create_mock_keyword_data (keyword : String) : List TrendRow :=
  [⟨keyword ++ " tips", 100, 10000, 65⟩,
   ⟨keyword ++ " guide", 85, 8500, 58⟩,
   ⟨keyword ++ " strategies", 70, 7000, 72⟩,
   ⟨keyword ++ " best practices", 60, 6000, 55⟩,
   ⟨keyword ++ " tools", 45, 4500, 48⟩]

/-- The observable outcome of `pytrends.related_queries()` inside the `try`
block: either the provider call raises (`err` — network, rate-limit or parse
failure, caught at line 137) or it returns a dictionary mapping each keyword
to its `'top'` bucket (`none` models a missing or `None` bucket, line 127),
a bucket being the raw rows `(query, value)`. -/
inductive ProviderResponse where
  | err : ProviderResponse
  | ok : List (String × Option (List (String × ℕ))) → ProviderResponse

/-- `fetch_keyword_trends` (lines 105-140): on a thrown provider error return
the mock data; on success return the derived rows when the keyword has a
non-empty `'top'` bucket and the empty DataFrame otherwise. -/
def fetch_keyword_trends (keyword : String) (resp : ProviderResponse) : List TrendRow :=
  match resp with
  | .err => create_mock_keyword_data keyword
  | .ok related =>
    match related.lookup keyword with
    | some (some raw) =>
      if raw.isEmpty then [] else raw.map (derive_row (maxVal raw))
    | some none => []
    | none => []

/-- The maximum of the result's `value` column (the claim's `popularity`). -/
def resultMaxValue (rows : List TrendRow) : ℕ :=
  (rows.map TrendRow.value).foldr max 0

/-- The maximum of the result's `difficulty` column. -/
def maxDifficulty (rows : List TrendRow) : ℕ :=
  (rows.map TrendRow.difficulty).foldr max 0

/-- The per-result property of spec §8: every row has
`estimated_volume = value * 100` and
`difficulty = round(value / max(value) * 100)`, and a non-empty result has
`max(difficulty) = 100`. -/
def derivedInvariant (rows : List TrendRow) : Bool :=
  (rows.all fun r =>
    r.estimated_volume == r.value * 100 &&
    r.difficulty == roundDiv (r.value * 100) (resultMaxValue rows)) &&
  (rows.isEmpty || maxDifficulty rows == 100)

/-! ### Credential resolver and content generator (src/main.py lines 12-42, 158-205) -/

/-- The OpenAI client object, identified by the key it was constructed with. -/
structure Client where
  api_key : String
deriving DecidableEq, Repr

/-- `configure_openai` (lines 12-29): Streamlit secrets first (used whenever
the key is in the store), then the environment variable (used only when
non-empty, Python truthiness of `if api_key:`), else `None`. -/
def configure_openai (secretsStore envVar : Option String) : Option Client :=
  match secretsStore with
  | some k => some ⟨k⟩
  | none =>
    match envVar with
    | some k => if k = "" then none else some ⟨k⟩
    | none => none

/-- `get_api_key_input` (lines 31-42): the sidebar text field, used only when
non-empty (`if temp_key:`). -/
def get_api_key_input (tempKey : String) : Option Client :=
  if tempKey = "" then none else some ⟨tempKey⟩

/-- Lines 98-100: `client = configure_openai()` then
`if not client: client = get_api_key_input()`. -/
def resolve_client (secretsStore envVar : Option String) (tempKey : String) : Option Client :=
  match configure_openai secretsStore envVar with
  | some c => some c
  | none => get_api_key_input tempKey

/-- The result dictionary of `generate_meta_description` (lines 198-201). -/
structure MetaDescriptionResult where
  content : String
  analysis : AnalysisReport
deriving DecidableEq, Repr

/-- The observable outcome of the chat-completion call inside the `try`
block: a raised provider error (caught at line 203) or the returned text. -/
inductive GenOutcome where
  | err : GenOutcome
  | ok : String → GenOutcome

/-- `generate_meta_description` (lines 158-205): with no client it reports
the error and returns `None` without calling the provider; on a provider
error it returns `None`; otherwise it strips the text and bundles it with
its analysis.  `tone` and `target_length` only shape the prompt. -/
def generate_meta_description (client : Option Client) (topic tone : String)
    (target_length : ℕ) (resp : GenOutcome) : Option MetaDescriptionResult :=
  match client with
  | none => none
  | some _ =>
    match resp with
    | .err => none
    | .ok text =>
      let description := text.trim
      some ⟨description, analyze_meta_description description.toList topic.toList⟩

/-- The resolver contract as §4.1 of the spec words it: a source's value, to
be usable, must be a non-empty string (the taxonomy's `MissingCredential` is
"no source yielded a usable key"). -/
def presentValue : Option String → Option String
  | some k => if k = "" then none else some k
  | none => none

/-- `resolve()` as §4.1 of the spec words it: first match wins among the
secret store (used whenever configured), the environment variable and the
interactively supplied value; `none` is `MissingCredential`. -/
def spec_resolve (secretsStore envVar : Option String) (interactive : String) : Option Client :=
  ((secretsStore.orElse fun _ => presentValue envVar).orElse fun _ =>
    presentValue (some interactive)).map Client.mk

/-! ### Helper lemmas -/

theorem splitWsAux_ne_nil (l : List Char) :
    ∀ acc t, t ∈ splitWsAux l acc → t ≠ [] := by
  induction l with
  | nil =>
    intro acc t ht
    by_cases h : acc.isEmpty
    · simp [splitWsAux, h] at ht
    · simp [splitWsAux, h] at ht
      subst ht
      simpa [List.isEmpty_iff] using h
  | cons c rest ih =>
    intro acc t ht
    rw [splitWsAux] at ht
    by_cases hw : c.isWhitespace
    · rw [if_pos hw] at ht
      by_cases h : acc.isEmpty
      · rw [if_pos h] at ht
        exact ih [] t ht
      · rw [if_neg h] at ht
        rcases List.mem_cons.mp ht with h1 | h1
        · subst h1
          simpa [List.isEmpty_iff] using h
        · exact ih [] t h1
    · rw [if_neg hw] at ht
      exact ih (c :: acc) t ht

theorem splitWs_ne_nil (l : List Char) (t : List Char) (ht : t ∈ splitWs l) :
    t ≠ [] :=
  splitWsAux_ne_nil l [] t ht

theorem isInfixOfB_nil (needle : List Char) :
    isInfixOfB needle [] = needle.isEmpty := rfl

theorem contains_topic_nil (topic : List Char) :
    contains_topic [] topic = false := by
  rw [contains_topic]
  rw [List.any_eq_false]
  intro w hw
  have hne : w ≠ [] := splitWs_ne_nil _ w hw
  have : lowerL [] = [] := rfl
  rw [this, isInfixOfB_nil]
  simpa [List.isEmpty_iff] using hne

theorem le_foldr_max (e : ℕ) (l : List ℕ) (x : ℕ) (hx : x ∈ l) :
    x ≤ l.foldr max e := by
  induction l with
  | nil => cases hx
  | cons a t ih =>
    rcases List.mem_cons.mp hx with rfl | hx
    · exact le_max_left _ _
    · exact le_trans (ih hx) (le_max_right _ _)

theorem foldr_max_le (e b : ℕ) (l : List ℕ) (he : e ≤ b)
    (h : ∀ x ∈ l, x ≤ b) : l.foldr max e ≤ b := by
  induction l with
  | nil => exact he
  | cons a t ih =>
    exact max_le (h a (List.mem_cons_self a t))
      (ih fun x hx => h x (List.mem_cons_of_mem a hx))

theorem foldr_max_mem (l : List ℕ) :
    l.foldr max 0 = 0 ∨ l.foldr max 0 ∈ l := by
  induction l with
  | nil => exact Or.inl rfl
  | cons a t ih =>
    rw [List.foldr_cons]
    rcases max_choice a (t.foldr max 0) with h | h
    · rw [h]
      exact Or.inr (List.mem_cons_self a t)
    · rw [h]
      rcases ih with h0 | hmem
      · exact Or.inl h0
      · exact Or.inr (List.mem_cons_of_mem a hmem)

theorem value_le_maxVal (raw : List (String × ℕ)) (p : String × ℕ)
    (hp : p ∈ raw) : p.2 ≤ maxVal raw :=
  le_foldr_max 0 _ p.2 (List.mem_map.mpr ⟨p, hp, rfl⟩)

theorem maxVal_mem (raw : List (String × ℕ)) (hm : 0 < maxVal raw) :
    ∃ p ∈ raw, p.2 = maxVal raw := by
  rcases foldr_max_mem (raw.map Prod.snd) with h0 | hmem
  · rw [maxVal] at hm
    omega
  · rcases List.mem_map.mp hmem with ⟨p, hp, hv⟩
    exact ⟨p, hp, hv⟩

theorem roundDiv_self_mul (m : ℕ) (hm : 0 < m) :
    roundDiv (m * 100) m = 100 := by
  rw [roundDiv]
  have hq : m * 100 / m = 100 := Nat.mul_div_cancel_left 100 hm
  have hr : m * 100 % m = 0 := Nat.mul_mod_right m 100
  simp only [hq, hr]
  have : 2 * 0 < m := by omega
  simp [this]

theorem roundDiv_le_100 (v m : ℕ) (hv : v ≤ m) (hm : 0 < m) :
    roundDiv (v * 100) m ≤ 100 := by
  rw [roundDiv]
  have hq : v * 100 / m ≤ 100 := by
    calc v * 100 / m ≤ m * 100 / m := Nat.div_le_div_right (by omega)
    _ = 100 := Nat.mul_div_cancel_left 100 hm
  have hdm : m * (v * 100 / m) + v * 100 % m = v * 100 := Nat.div_add_mod _ _
  have hrm : v * 100 % m < m := Nat.mod_lt _ hm
  split_ifs with h1 h2 h3
  · exact hq
  · -- the remainder is at least half of `m`, so the quotient is under 100
    rcases Nat.lt_or_ge (v * 100 / m) 100 with hlt | hge
    · omega
    · exfalso
      have h100 : v * 100 / m = 100 := le_antisymm hq hge
      rw [h100] at hdm
      have : v * 100 ≤ m * 100 := by omega
      omega
  · exact hq
  · rcases Nat.lt_or_ge (v * 100 / m) 100 with hlt | hge
    · omega
    · exfalso
      have h100 : v * 100 / m = 100 := le_antisymm hq hge
      rw [h100] at hdm
      have : v * 100 ≤ m * 100 := by omega
      omega

theorem resultMaxValue_derive (raw : List (String × ℕ)) (m : ℕ) :
    resultMaxValue (raw.map (derive_row m)) = maxVal raw := by
  rw [resultMaxValue, maxVal, List.map_map]
  rfl

theorem value_derive (m : ℕ) : TrendRow.value ∘ derive_row m = Prod.snd := rfl

/-! ### Claim theorems -/

/-- Claim C3: for every content string and topic, the score the analyzer
computes equals the fixed weighted rule of the spec: the length bucket
(40 / 30 / 20 / else 10), plus 30 for topic presence, plus 30 for an action
word, clamped to at most 100. -/
theorem analyze_score_eq_spec (description topic : List Char) :
    (analyze_meta_description description topic).score =
      spec_score description.length (contains_topic description topic)
        (has_action_word description) := rfl

/-- Claim C8: for every content string and topic, the score field of the
analysis report lies in the closed interval `[0, 100]`. -/
theorem analyze_score_in_range (description topic : List Char) :
    0 ≤ (analyze_meta_description description topic).score ∧
      (analyze_meta_description description topic).score ≤ 100 := by
  refine ⟨Nat.zero_le _, ?_⟩
  show calculate_seo_score _ _ _ ≤ 100
  rw [calculate_seo_score]
  exact Nat.min_le_right _ _

/-- Claim C9: for every content string and topic, the suggestion list is
built in the spec's fixed order, each entry appended exactly when its
condition holds, and it is empty exactly when every heuristic check passes
(length in `[120, 160]`, topic present, action word present, emphatic
punctuation present). -/
theorem analyze_suggestions_spec (description topic : List Char) :
    (analyze_meta_description description topic).suggestions =
      spec_suggestions description.length (contains_topic description topic)
        (has_action_word description) (has_emphasis description) ∧
    ((analyze_meta_description description topic).suggestions = [] ↔
      (description.length ≤ 160 ∧ 120 ≤ description.length ∧
        contains_topic description topic = true ∧
        has_action_word description = true ∧ has_emphasis description = true)) := by
  constructor
  · rfl
  · show spec_suggestions _ _ _ _ = [] ↔ _
    rw [spec_suggestions]
    split_ifs <;> simp_all

/-- Claim C10: for every content string and topic, the shorten and lengthen
suggestions never appear together (their conditions `length > 160` and
`length < 120` exclude each other), so the suggestion list holds at most 4
of the 5 possible entries. -/
theorem analyze_suggestions_at_most_four (description topic : List Char) :
    ((analyze_meta_description description topic).suggestions.count sugg_shorten) +
      ((analyze_meta_description description topic).suggestions.count sugg_lengthen) ≤ 1 ∧
    (analyze_meta_description description topic).suggestions.length ≤ 4 := by
  have h : (analyze_meta_description description topic).suggestions =
      spec_suggestions description.length (contains_topic description topic)
        (has_action_word description) (has_emphasis description) := rfl
  rw [h, spec_suggestions]
  split_ifs <;> first | omega | decide

/-- Claim C6: for empty content and any topic, the analyzer reports length
0, word count 0, no topic, no action word, score 10, and exactly the four
suggestions lengthen (never shorten), topic keywords, action words and
punctuation, in that order. -/
theorem analyze_empty_content (topic : List Char) :
    analyze_meta_description [] topic =
      ⟨0, 0, false, false, [sugg_lengthen, sugg_topic, sugg_action, sugg_punct], 10⟩ := by
  rw [analyze_meta_description, contains_topic_nil]
  rfl

/-- Claim C7: every content of length exactly 140 that contains a topic
word (case-insensitive), an action word (case-insensitive) and a `?`
character is scored 100 with an empty suggestion list. -/
theorem analyze_ideal_scores_100 (description topic : List Char)
    (hlen : description.length = 140)
    (hct : contains_topic description topic = true)
    (haw : has_action_word description = true)
    (hq : description.contains '?' = true) :
    (analyze_meta_description description topic).score = 100 ∧
      (analyze_meta_description description topic).suggestions = [] := by
  have hp : has_emphasis description = true := by
    have h2 : '?' ∈ description := by simpa using hq
    simp [has_emphasis, h2]
  constructor
  · show calculate_seo_score description.length (contains_topic description topic)
      (has_action_word description) = 100
    rw [hlen, hct, haw]
    decide
  · have h : (analyze_meta_description description topic).suggestions =
        spec_suggestions description.length (contains_topic description topic)
          (has_action_word description) (has_emphasis description) := rfl
    rw [h, hlen, hct, haw, hp]
    decide

set_option maxRecDepth 16000 in
/-- Witness for C7: a concrete 140-character content with topic word `seo`,
action word `discover` and a question mark scores 100 with no
suggestions. -/
theorem analyze_ideal_scores_100_witness :
    (analyze_meta_description ("Discover seo?".toList ++ List.replicate 127 'x')
        "seo".toList).score = 100 ∧
      (analyze_meta_description ("Discover seo?".toList ++ List.replicate 127 'x')
        "seo".toList).suggestions = [] :=
  analyze_ideal_scores_100 _ _ (by decide) (by decide) (by decide) (by decide)

/-- Counterexample to claim C1 as stated: the mock-data fallback returned on
a provider error is a non-empty result of `fetch_keyword_trends`, yet it
violates the derived-field property (its difficulty column is the fixed
list `[65, 58, 72, 55, 48]`, not `round(value / max * 100)`, and its
maximum difficulty is 72, not 100). -/
theorem mock_data_violates_derivation :
    derivedInvariant (fetch_keyword_trends "seo" ProviderResponse.err) = false := by
  decide

/-- Claim C1 as amended: every non-empty result `fetch_keyword_trends`
builds from real provider data (a successful response whose rows have a
positive maximum value) satisfies the derived-field property: each row has
`estimated_volume = value * 100` and
`difficulty = round(value / max(value) * 100)`, and the maximum difficulty
is 100. -/
theorem fetch_success_rows_derived (keyword : String)
    (related : List (String × Option (List (String × ℕ)))) (raw : List (String × ℕ))
    (hl : related.lookup keyword = some (some raw)) (hne : raw ≠ [])
    (hm : 0 < maxVal raw) :
    derivedInvariant (fetch_keyword_trends keyword (ProviderResponse.ok related)) = true := by
  have hfetch : fetch_keyword_trends keyword (ProviderResponse.ok related) =
      raw.map (derive_row (maxVal raw)) := by
    rw [fetch_keyword_trends, hl]
    simp [List.isEmpty_iff, hne]
  rw [hfetch, derivedInvariant, Bool.and_eq_true]
  constructor
  · simp only [resultMaxValue_derive]
    rw [List.all_eq_true]
    intro r hr
    rcases List.mem_map.mp hr with ⟨p, hp, rfl⟩
    simp [derive_row]
  · rw [Bool.or_eq_true]
    right
    rw [beq_iff_eq]
    have upper : maxDifficulty (raw.map (derive_row (maxVal raw))) ≤ 100 := by
      apply foldr_max_le _ _ _ (by omega)
      intro d hd
      rcases List.mem_map.mp hd with ⟨r, hr, rfl⟩
      rcases List.mem_map.mp hr with ⟨p, hp, rfl⟩
      exact roundDiv_le_100 p.2 (maxVal raw) (value_le_maxVal raw p hp) hm
    have lower : (100 : ℕ) ≤ maxDifficulty (raw.map (derive_row (maxVal raw))) := by
      rcases maxVal_mem raw hm with ⟨p, hp, hp2⟩
      apply le_foldr_max
      apply List.mem_map.mpr
      refine ⟨derive_row (maxVal raw) p, List.mem_map.mpr ⟨p, hp, rfl⟩, ?_⟩
      show roundDiv (p.2 * 100) (maxVal raw) = 100
      rw [hp2]
      exact roundDiv_self_mul _ hm
    omega

/-- Witness for the amended C1: a successful provider response with two
rows (values 40 and 80) yields a result satisfying the derived-field
property. -/
theorem fetch_success_rows_derived_witness :
    derivedInvariant (fetch_keyword_trends "seo"
      (ProviderResponse.ok [("seo", some [("seo ranking", 40), ("seo tools", 80)])])) = true :=
  fetch_success_rows_derived "seo" _ [("seo ranking", 40), ("seo tools", 80)]
    rfl (by decide) (by decide)

/-- Claim C2 (code evaluated at the failing input): on a thrown provider
error the caller receives the bare mock rows — the same four fields
(`query`, `value`, `estimated_volume`, `difficulty`) a real result carries
and nothing else; no provenance flag exists anywhere in the result. -/
theorem mock_substitution_unflagged :
    fetch_keyword_trends "seo" ProviderResponse.err =
      [⟨"seo tips", 100, 10000, 65⟩, ⟨"seo guide", 85, 8500, 58⟩,
       ⟨"seo strategies", 70, 7000, 72⟩, ⟨"seo best practices", 60, 6000, 55⟩,
       ⟨"seo tools", 45, 4500, 48⟩] := by
  decide

/-- Claim C4: whenever the provider responds successfully but reports no
related-query data (no entry for the keyword, a `None` top bucket, or an
empty row set), `fetch_keyword_trends` returns the empty result; and no
successful response whatsoever is answered with the mock dataset — mock
substitution happens only on a thrown provider error. -/
theorem fetch_no_data_empty (keyword : String)
    (related : List (String × Option (List (String × ℕ)))) :
    (related.lookup keyword = none ∨ related.lookup keyword = some none ∨
        related.lookup keyword = some (some []) →
      fetch_keyword_trends keyword (ProviderResponse.ok related) = []) ∧
    fetch_keyword_trends keyword (ProviderResponse.ok related) ≠
      create_mock_keyword_data keyword := by
  constructor
  · rintro (h | h | h) <;> rw [fetch_keyword_trends, h] <;> rfl
  · cases hl : related.lookup keyword with
    | none =>
      rw [fetch_keyword_trends, hl]
      simp [create_mock_keyword_data]
    | some top =>
      cases top with
      | none =>
        rw [fetch_keyword_trends, hl]
        simp [create_mock_keyword_data]
      | some raw =>
        rw [fetch_keyword_trends, hl]
        show (if raw.isEmpty then [] else raw.map (derive_row (maxVal raw))) ≠
          create_mock_keyword_data keyword
        by_cases hraw : raw.isEmpty
        · rw [if_pos hraw]
          simp [create_mock_keyword_data]
        · rw [if_neg hraw]
          intro heq
          have hv : raw.map Prod.snd = [100, 85, 70, 60, 45] := by
            have hmv := congrArg (List.map TrendRow.value) heq
            rw [List.map_map, value_derive] at hmv
            simpa [create_mock_keyword_data] using hmv
          have hmax : maxVal raw = 100 := by
            rw [maxVal, hv]
            rfl
          cases raw with
          | nil => simp at hv
          | cons p rest =>
            rw [List.map_cons, create_mock_keyword_data] at heq
            injection heq with h1 _
            have hp2 : p.2 = 100 := by
              have hval := congrArg TrendRow.value h1
              simpa [derive_row] using hval
            have hd := congrArg TrendRow.difficulty h1
            simp only [derive_row] at hd
            rw [hmax, hp2] at hd
            have : roundDiv (100 * 100) 100 = 100 := by decide
            omega

/-- Witness for C4: a successful response carrying an empty `top` bucket
for `"seo"` yields the empty result and not the mock dataset. -/
theorem fetch_no_data_empty_witness :
    fetch_keyword_trends "seo" (ProviderResponse.ok [("seo", some ([] : List (String × ℕ)))]) = [] ∧
      fetch_keyword_trends "seo" (ProviderResponse.ok [("seo", some ([] : List (String × ℕ)))]) ≠
        create_mock_keyword_data "seo" :=
  ⟨(fetch_no_data_empty "seo" _).1 (Or.inr (Or.inr rfl)), (fetch_no_data_empty "seo" _).2⟩

/-- Claim C5: credential resolution matches the spec's fixed order — secret
store, then environment variable, then interactively supplied value, first
usable one wins, `none` (MissingCredential) when all are absent — and with
no resolved client `generate_meta_description` halts with `none` instead of
calling the provider. -/
theorem credential_resolution (secretsStore envVar : Option String) (tempKey : String)
    (topic tone : String) (target_length : ℕ) (resp : GenOutcome) :
    resolve_client secretsStore envVar tempKey = spec_resolve secretsStore envVar tempKey ∧
      generate_meta_description none topic tone target_length resp = none := by
  refine ⟨?_, rfl⟩
  cases secretsStore with
  | some k => rfl
  | none =>
    cases envVar with
    | none =>
      by_cases hi : tempKey = "" <;>
        simp [resolve_client, configure_openai, spec_resolve, presentValue,
          get_api_key_input, hi, Option.orElse]
    | some k =>
      by_cases hk : k = "" <;> by_cases hi : tempKey = "" <;>
        simp [resolve_client, configure_openai, spec_resolve, presentValue,
          get_api_key_input, hk, hi, Option.orElse]

end SEOplan
